import Mathlib

/-
  Shallow embedding of jemi (src/jemi.h, src/jemi.c), a pure-C JSON emitter
  for embedded systems, together with theorems settling the specification
  claims about it.

  Modelling conventions:
  - C strings are modelled as lists of characters (one entry per byte).
  - The node pool is a heap, a function from slot index to node record, plus
    an explicit size; pointers are `Option Nat` (none models NULL).
  - The union inside jemi_node_t (integer / number / string / children) is
    modelled by `Payload`, which records the member last stored.  Reading a
    member other than the one last stored, in a place where the C code would
    then dereference the resulting reinterpreted pointer, is undefined
    behaviour and is modelled as the error value `RunErr.ub`.  An all-zero
    union (from memset in jemi_reset) reads as 0 for numbers and as a NULL
    children pointer, matching the C behaviour.
  - The C double `number` field is modelled by a rational: the claims only
    store, copy and print it, never compute with it.
  - Loops that walk pointer chains (the emit driver, jemi_copy, list append,
    jemi_available) take an explicit fuel argument; exhausting fuel yields
    `RunErr.fuel` and models non-termination, never used by any theorem.
-/

namespace Jemi

/-- Byte strings, one list entry per byte of the C string. -/
abbrev Str := List Char

/-- Convert a Lean string literal to the byte-list model. -/
def strL (s : String) : Str := s.toList

/-- jemi_type_t from jemi.h (declaration order fixes the enum values). -/
inductive JemiType
  | JEMI_NULL
  | JEMI_OBJECT
  | JEMI_ARRAY
  | JEMI_INTEGER
  | JEMI_FLOAT
  | JEMI_STRING
  | JEMI_TRUE
  | JEMI_FALSE
deriving DecidableEq

/-- Numeric value of a jemi_type_t enumerator, as the C compiler assigns it. -/
def typeVal : JemiType → Nat
  | .JEMI_NULL => 0
  | .JEMI_OBJECT => 1
  | .JEMI_ARRAY => 2
  | .JEMI_INTEGER => 3
  | .JEMI_FLOAT => 4
  | .JEMI_STRING => 5
  | .JEMI_TRUE => 6
  | .JEMI_FALSE => 7

/-- jemi_state_t from jemi.h (declaration order fixes the enum values). -/
inductive JemiState
  | JEMI_NODE_UNUSED
  | JEMI_CONTAINER_BEGUN
  | JEMI_KEY_USED
  | JEMI_VAL_USED
  | JEMI_CHILDREN_USED
  | JEMI_NODE_USED
deriving DecidableEq

/-- Numeric value of a jemi_state_t enumerator, as the C compiler assigns it. -/
def stateVal : JemiState → Nat
  | .JEMI_NODE_UNUSED => 0
  | .JEMI_CONTAINER_BEGUN => 1
  | .JEMI_KEY_USED => 2
  | .JEMI_VAL_USED => 3
  | .JEMI_CHILDREN_USED => 4
  | .JEMI_NODE_USED => 5

/-- Node slot indices into the pool; Option NodeId models a node pointer. -/
abbrev NodeId := Nat

/-- The anonymous union inside jemi_node_t: integer, number, string or
children, tagged by which member was last stored.  `uzero` is the all-zero
union produced by memset in jemi_reset. -/
inductive Payload
  | uzero
  | uint (i : Int)
  | unum (q : Rat)
  | ustr (s : Str)
  | uchild (c : Option NodeId)
deriving DecidableEq

/-- Read the `integer` member.  Defined for the stored integer and for the
zeroed union (both give a plain int); reading any other member is a
type-punned load whose value the verified scenarios never rely on, so it is
modelled as an error. -/
def readInteger : Payload → Option Int
  | .uint i => some i
  | .uzero => some 0
  | _ => none

/-- Read the `number` member; same conventions as readInteger. -/
def readNumber : Payload → Option Rat
  | .unum q => some q
  | .uzero => some 0
  | _ => none

/-- Read the `string` member in a context that will pass it to snprintf %s.
Only a stored string pointer is safe; the zeroed union is a NULL pointer and
any other member reinterprets non-pointer bytes as a pointer, so snprintf
dereferencing it is undefined behaviour. -/
def readString : Payload → Option Str
  | .ustr s => some s
  | _ => none

/-- Read the `children` member.  A stored children pointer reads back, and
the zeroed union reads as a NULL children pointer (no children); any other
member reinterprets non-pointer bytes, and the emitter then dereferences the
result, which is undefined behaviour. -/
def readChildren : Payload → Option (Option NodeId)
  | .uchild c => some c
  | .uzero => some none
  | _ => none

/-- jemi_node_t from jemi.h. -/
structure Node where
  sibling : Option NodeId
  parent : Option NodeId
  type : JemiType
  state : JemiState
  key : Option Str
  pay : Payload
  update : Option Nat

/-- A node slot as memset(0) leaves it: all pointers NULL, type 0 means
JEMI_NULL, state 0 means JEMI_NODE_UNUSED, zeroed union, no callback. -/
def zeroNode : Node :=
  { sibling := none, parent := none, type := .JEMI_NULL,
    state := .JEMI_NODE_UNUSED, key := none, pay := .uzero, update := none }

/-- The global state of the library: the caller-supplied pool (heap plus its
size) and the freelist head s_jemi_freelist from jemi.c. -/
structure GState where
  heap : NodeId → Node
  size : Nat
  freelist : Option NodeId

/-- Store a node back into its pool slot (a C in-place field write). -/
def commit (st : GState) (nid : NodeId) (n : Node) : GState :=
  { st with heap := Function.update st.heap nid n }

/-- jemi_out_buf_t from jemi.h: the byte sink.  The writer callback is
modelled by its contract from the spec: it appends each character to the
buffer. -/
structure Out where
  buf : Str
  bufLen : Nat
  full : Bool

/-- A fresh output buffer of the given capacity. -/
def mkOut (cap : Nat) : Out := { buf := [], bufLen := cap, full := false }

/-- The capacity bound used by emit_string: output->bufLen - 1, where bufLen
is a uint16_t whose promotion to int and conversion back to size_t makes the
bound huge when bufLen is 0. -/
def capThreshold (bufLen : Nat) : Nat :=
  if bufLen = 0 then 2 ^ 64 - 1 else bufLen - 1

/-- emit_string from jemi.c: if the fragment would exceed remaining capacity,
mark the sink full and return true without writing; otherwise write every
byte through the writer callback and return false. -/
def emit_string (out : Out) (data : Str) : Out × Bool :=
  if out.buf.length + data.length > capThreshold out.bufLen then
    ({ out with full := true }, true)
  else
    ({ out with buf := out.buf ++ data }, false)

/-- Errors of the model: `ub` marks undefined behaviour in the C source
(NULL dereference or a type-punned pointer dereference); `fuel` marks an
exhausted fuel counter (models non-termination, unreachable in the verified
scenarios). -/
inductive RunErr
  | ub
  | fuel
deriving DecidableEq

/-- The JEMI_NODE_UNUSED key-prefix block that every case of emit_aux
repeats: if the node still has state JEMI_NODE_UNUSED, emit the optional
quoted key followed by a colon (snprintf into a buffer of `bufSize` bytes,
hence truncation to bufSize - 1 bytes) and advance to JEMI_KEY_USED on
success; without a key just advance. -/
def keyStep (bufSize : Nat) (n : Node) (out : Out) : Node × Out :=
  if n.state = .JEMI_NODE_UNUSED then
    match n.key with
    | some k =>
        let p := emit_string out ((['"'] ++ k ++ ['"', ':']).take (bufSize - 1))
        (if p.2 then n else { n with state := .JEMI_KEY_USED }, p.1)
    | none => ({ n with state := .JEMI_KEY_USED }, out)
  else (n, out)

/-- The JEMI_VAL_USED trailing-comma block that every scalar case of
emit_aux repeats: with a sibling, emit a comma and advance to
JEMI_NODE_USED on success; without a sibling just advance. -/
def commaStep (n : Node) (out : Out) : Node × Out :=
  if n.state = .JEMI_VAL_USED then
    match n.sibling with
    | some _ =>
        let p := emit_string out [',']
        (if p.2 then n else { n with state := .JEMI_NODE_USED }, p.1)
    | none => ({ n with state := .JEMI_NODE_USED }, out)
  else (n, out)

/-- The code after the switch in emit_aux: a node not yet JEMI_NODE_USED is
returned so the same fragment is retried; otherwise continue at the sibling,
else at the parent, else traversal is finished. -/
def nextAfter (n : Node) (nid : NodeId) : Option NodeId :=
  if n.state ≠ .JEMI_NODE_USED then some nid
  else
    match n.sibling with
    | some s => some s
    | none => n.parent

/-- Shared exit point of emit_aux: write the node back and compute the next
node from the links. -/
def stepTail (st : GState) (nid : NodeId) (n : Node) (out : Out) (left : Int) :
    Except RunErr (GState × Out × Int × Option NodeId) :=
  .ok (commit st nid n, out, left, nextAfter n nid)

/-- The JEMI_CHILDREN_USED closing-bracket block of the container cases of
emit_aux: emit the bracket, with a trailing comma when a sibling follows
(snprintf into a 3-byte buffer), advance to JEMI_NODE_USED on success, then
fall through to the common tail. -/
def containerClose (c : Char) (st : GState) (nid : NodeId) (n : Node) (out : Out)
    (left : Int) : Except RunErr (GState × Out × Int × Option NodeId) :=
  let frag : Str := match n.sibling with | some _ => [c, ','] | none => [c]
  let p := emit_string out frag
  let n1 := if p.2 then n else { n with state := .JEMI_NODE_USED }
  stepTail st nid n1 p.1 left

/-- Environment giving meaning to the ObjUpdate callback pointers: a
generator receives the global state and the children pointer that the C code
passes it, may mutate the pool (append children), and returns a uint8_t. -/
abbrev GenEnv := Nat → GState → Option NodeId → GState × Nat

/-- A generator environment whose callbacks change nothing and report zero
elements remaining. -/
def genv0 : GenEnv := fun _ st _ => (st, 0)

/-- The JEMI_STRING case body of emit_aux.  It is a separate definition
because the JEMI_FLOAT case of the C switch has no break statement and falls
through into it.  Key prefix and value share a 30-byte snprintf buffer, so
the quoted string is truncated to its first 29 bytes. -/
def stringBody (st : GState) (nid : NodeId) (n : Node) (out : Out) (left : Int) :
    Except RunErr (GState × Out × Int × Option NodeId) :=
  let k1 := keyStep 30 n out
  let v : Except RunErr (Node × Out) :=
    if k1.1.state = .JEMI_KEY_USED then
      match readString k1.1.pay with
      | none => .error .ub
      | some s =>
          let p := emit_string k1.2 ((['"'] ++ s ++ ['"']).take 29)
          .ok (if p.2 then k1.1 else { k1.1 with state := .JEMI_VAL_USED }, p.1)
    else .ok (k1.1, k1.2)
  match v with
  | .error e => .error e
  | .ok nv =>
      let c2 := commaStep nv.1 nv.2
      stepTail st nid c2.1 c2.2 left

/-- Decimal rendering of an integer, as snprintf %d produces it. -/
def intToStr (i : Int) : Str := strL (toString i)

/-- The C cast (int)number: truncation toward zero. -/
def ratTrunc (q : Rat) : Int := q.num / (q.den : Int)

/-- Decimal rendering of a double by snprintf %lf: six fractional digits,
rounded to the nearest representable value (modelled as round half up; no
theorem depends on a value where the difference could show). -/
def lfToStr (q : Rat) : Str :=
  let neg := q < 0
  let a := if neg then -q else q
  let scaled : Int := Rat.floor (a * 1000000 + 1 / 2)
  let ip := scaled / 1000000
  let fp := (scaled % 1000000).toNat
  let fs := strL (toString fp)
  (if neg then ['-'] else []) ++ strL (toString ip) ++ ['.'] ++
    List.replicate (6 - fs.length) '0' ++ fs

/-- emit_aux from jemi.c: one automaton step on one node.  Returns the
updated pool, sink and shared streaming counter, and the node at which the
driver continues (none when traversal is finished).  The `left` argument
threads the function-static variable of the streaming-array branch. -/
def emit_aux (genv : GenEnv) (st : GState) (nid : NodeId) (out : Out) (left : Int) :
    Except RunErr (GState × Out × Int × Option NodeId) :=
  let n := st.heap nid
  match n.type with
  | .JEMI_OBJECT =>
      let k1 := keyStep 22 n out
      let b : Node × Out :=
        if k1.1.state = .JEMI_KEY_USED then
          let p := emit_string k1.2 ['\x7b']
          (if p.2 then k1.1 else { k1.1 with state := .JEMI_CONTAINER_BEGUN }, p.1)
        else (k1.1, k1.2)
      if b.1.state = .JEMI_CONTAINER_BEGUN then
        let n3 : Node := { b.1 with state := .JEMI_CHILDREN_USED }
        match readChildren n3.pay with
        | none => .error .ub
        | some c => .ok (commit st nid n3, b.2, left, c)
      else if b.1.state = .JEMI_CHILDREN_USED then
        containerClose '\x7d' st nid b.1 b.2 left
      else stepTail st nid b.1 b.2 left
  | .JEMI_ARRAY =>
      let k1 := keyStep 22 n out
      let b : Node × Out :=
        if k1.1.state = .JEMI_KEY_USED then
          let p := emit_string k1.2 ['[']
          (if p.2 then k1.1 else { k1.1 with state := .JEMI_CONTAINER_BEGUN }, p.1)
        else (k1.1, k1.2)
      if b.1.state = .JEMI_CONTAINER_BEGUN then
        let n3 : Node := { b.1 with state := .JEMI_CHILDREN_USED }
        match readChildren n3.pay with
        | none => .error .ub
        | some c => .ok (commit st nid n3, b.2, left, c)
      else if b.1.state = .JEMI_CHILDREN_USED then
        match b.1.update with
        | some gid =>
            if left ≠ 0 then
              let p := emit_string b.2 [',']
              if p.2 then .ok (commit st nid b.1, p.1, left, some nid)
              else
                match readChildren b.1.pay with
                | none => .error .ub
                | some ch =>
                    let g := genv gid (commit st nid b.1) ch
                    let left1 : Int := ((g.2 % 256 : Nat) : Int)
                    if left1 = -1 then
                      containerClose ']' g.1 nid (g.1.heap nid) p.1 left1
                    else
                      match readChildren (g.1.heap nid).pay with
                      | none => .error .ub
                      | some c2 => .ok (g.1, p.1, left1, c2)
            else containerClose ']' st nid b.1 b.2 (-1)
        | none => containerClose ']' st nid b.1 b.2 left
      else stepTail st nid b.1 b.2 left
  | .JEMI_INTEGER =>
      let k1 := keyStep 22 n out
      let v : Except RunErr (Node × Out) :=
        if k1.1.state = .JEMI_KEY_USED then
          match readInteger k1.1.pay with
          | none => .error .ub
          | some i =>
              let p := emit_string k1.2 ((intToStr i).take 21)
              .ok (if p.2 then k1.1 else { k1.1 with state := .JEMI_VAL_USED }, p.1)
        else .ok (k1.1, k1.2)
      match v with
      | .error e => .error e
      | .ok nv =>
          let c2 := commaStep nv.1 nv.2
          stepTail st nid c2.1 c2.2 left
  | .JEMI_FLOAT =>
      -- the case has no break statement: after its own blocks it falls
      -- through into the JEMI_STRING case body
      let k1 := keyStep 22 n out
      let v : Except RunErr (Node × Out) :=
        if k1.1.state = .JEMI_KEY_USED then
          match readNumber k1.1.pay with
          | none => .error .ub
          | some q =>
              let i := ratTrunc q
              let txt := if (i : Rat) = q then intToStr i else lfToStr q
              let p := emit_string k1.2 (txt.take 21)
              .ok (if p.2 then k1.1 else { k1.1 with state := .JEMI_VAL_USED }, p.1)
        else .ok (k1.1, k1.2)
      match v with
      | .error e => .error e
      | .ok nv =>
          let c2 := commaStep nv.1 nv.2
          stringBody st nid c2.1 c2.2 left
  | .JEMI_STRING => stringBody st nid n out left
  | .JEMI_TRUE | .JEMI_FALSE =>
      let k1 := keyStep 22 n out
      let p2 : Node × Out :=
        if k1.1.state = .JEMI_KEY_USED then
          -- the C condition compares the enumerator JEMI_TRUE of
          -- jemi_type_t against node->state, a jemi_state_t
          let lit : Str :=
            if typeVal .JEMI_TRUE = stateVal k1.1.state then strL "true"
            else strL "false"
          let p := emit_string k1.2 lit
          (if p.2 then k1.1 else { k1.1 with state := .JEMI_VAL_USED }, p.1)
        else (k1.1, k1.2)
      let c2 := commaStep p2.1 p2.2
      stepTail st nid c2.1 c2.2 left
  | .JEMI_NULL =>
      let k1 := keyStep 22 n out
      let p2 : Node × Out :=
        if k1.1.state = .JEMI_KEY_USED then
          let p := emit_string k1.2 (strL "null")
          (if p.2 then k1.1 else { k1.1 with state := .JEMI_VAL_USED }, p.1)
        else (k1.1, k1.2)
      let c2 := commaStep p2.1 p2.2
      stepTail st nid c2.1 c2.2 left

/-- The do-while loop of jemi_emit: step the automaton until traversal
yields NULL or the sink reports full. -/
def emitLoop (genv : GenEnv) : Nat → GState → Out → Int → NodeId →
    Except RunErr (GState × Out × Int × Option NodeId)
  | 0, _, _, _, _ => .error .fuel
  | f + 1, st, out, left, nid =>
      match emit_aux genv st nid out left with
      | .error e => .error e
      | .ok (st1, out1, left1, next) =>
          match next with
          | none => .ok (st1, out1, left1, none)
          | some nid2 =>
              if out1.full then .ok (st1, out1, left1, some nid2)
              else emitLoop genv f st1 out1 left1 nid2

/-- jemi_emit from jemi.c: run the loop from the root, then write one
terminator character through the writer callback, and return the node at
which the next call resumes (none when the tree is fully emitted).  Calling
it with a NULL root makes emit_aux dereference NULL. -/
def jemi_emit (genv : GenEnv) (fuel : Nat) (st : GState) (root : Option NodeId)
    (out : Out) (left : Int) : Except RunErr (GState × Out × Int × Option NodeId) :=
  match root with
  | none => .error .ub
  | some nid =>
      match emitLoop genv fuel st out left nid with
      | .error e => .error e
      | .ok (st1, out1, left1, next) =>
          .ok (st1, { out1 with buf := out1.buf ++ [Char.ofNat 0] }, left1, next)

/-- jemi_reset from jemi.c: zero the pool, then thread every slot into the
freelist through the sibling field; the loop links slot i to slot i - 1 and
leaves slot pool_size - 1 as the freelist head. -/
def jemi_reset (n : Nat) : GState :=
  { heap := fun i =>
      if i < n then { zeroNode with sibling := if i = 0 then none else some (i - 1) }
      else zeroNode
  , size := n
  , freelist := if n = 0 then none else some (n - 1) }

/-- jemi_alloc from jemi.c: pop the freelist head; on success clear its
sibling link, set the type and reset the state to JEMI_NODE_UNUSED; on an
empty freelist return NULL. -/
def jemi_alloc (st : GState) (t : JemiType) : GState × Option NodeId :=
  match st.freelist with
  | none => (st, none)
  | some i =>
      let node := st.heap i
      ( { st with
            freelist := node.sibling
          , heap := Function.update st.heap i
              { node with sibling := none, type := t, state := .JEMI_NODE_UNUSED } }
      , some i )

/-- The counting loop of jemi_available, walking sibling links with fuel. -/
def availAux (st : GState) : Nat → Option NodeId → Nat
  | _, none => 0
  | 0, some _ => 0
  | f + 1, some i => 1 + availAux st f (st.heap i).sibling

/-- jemi_available from jemi.c: the length of the freelist.  The pool size
bounds the chain length of every freelist the library itself builds, so it
serves as the fuel. -/
def jemi_available (st : GState) : Nat := availAux st st.size st.freelist

/-- The sibling-linking loop shared by jemi_array and jemi_object: walk the
variadic argument list (modelled as the list of arguments before the NULL
terminator), setting each element sibling to the following argument and its
parent to the container.  The walk stops at the first NULL argument, exactly
as the C loop condition does. -/
def linkChildren (st : GState) (root : NodeId) : Option NodeId → List (Option NodeId) → GState
  | none, _ => st
  | some e, [] =>
      commit st e { st.heap e with sibling := none, parent := some root }
  | some e, a :: rest =>
      linkChildren (commit st e { st.heap e with sibling := a, parent := some root }) root a rest

/-- jemi_array from jemi.c: allocate a JEMI_ARRAY root, store the key and
the first argument as the children head, then link the arguments as its
children.  The result of jemi_alloc is dereferenced without a NULL check
(root->key = key), so pool exhaustion is undefined behaviour here. -/
def jemi_array (st : GState) (key : Option Str) (args : List (Option NodeId)) :
    Except RunErr (GState × Option NodeId) :=
  match jemi_alloc st .JEMI_ARRAY with
  | (_, none) => .error .ub
  | (st1, some root) =>
      let st2 := commit st1 root
        { st1.heap root with key := key, pay := .uchild ((args.headD none)) }
      .ok (linkChildren st2 root (args.headD none) args.tail, some root)

/-- jemi_array_updateable from jemi.c: like jemi_array but also stores the
generator callback; the length parameter is accepted and ignored, exactly as
in the C body.  Same missing NULL check as jemi_array. -/
def jemi_array_updateable (st : GState) (key : Option Str) (gen : Nat) (_length : Nat)
    (args : List (Option NodeId)) : Except RunErr (GState × Option NodeId) :=
  match jemi_alloc st .JEMI_ARRAY with
  | (_, none) => .error .ub
  | (st1, some root) =>
      let st2 := commit st1 root
        { st1.heap root with
            key := key,
            update := some gen,
            pay := .uchild ((args.headD none)) }
      .ok (linkChildren st2 root (args.headD none) args.tail, some root)

/-- jemi_object from jemi.c: identical to jemi_array with type JEMI_OBJECT,
including the missing NULL check. -/
def jemi_object (st : GState) (key : Option Str) (args : List (Option NodeId)) :
    Except RunErr (GState × Option NodeId) :=
  match jemi_alloc st .JEMI_OBJECT with
  | (_, none) => .error .ub
  | (st1, some root) =>
      let st2 := commit st1 root
        { st1.heap root with key := key, pay := .uchild ((args.headD none)) }
      .ok (linkChildren st2 root (args.headD none) args.tail, some root)

/-- The linking loop of jemi_list: same walk as linkChildren but without a
container, so no parent is set. -/
def linkList (st : GState) : Option NodeId → List (Option NodeId) → GState
  | none, _ => st
  | some e, [] => commit st e { st.heap e with sibling := none }
  | some e, a :: rest => linkList (commit st e { st.heap e with sibling := a }) a rest

/-- jemi_list from jemi.c: sibling-link the arguments into a disembodied
list and return its first element. -/
def jemi_list (st : GState) (args : List (Option NodeId)) : GState × Option NodeId :=
  match args with
  | [] => (st, none)
  | e :: rest => (linkList st e rest, e)

/-- jemi_integer from jemi.c: allocate, and only when allocation succeeded
store the key and the integer; exhaustion propagates as NULL. -/
def jemi_integer (st : GState) (key : Option Str) (i : Int) : GState × Option NodeId :=
  match jemi_alloc st .JEMI_INTEGER with
  | (st1, none) => (st1, none)
  | (st1, some nid) =>
      (commit st1 nid { st1.heap nid with key := key, pay := .uint i }, some nid)

/-- jemi_string from jemi.c: allocate, and only when allocation succeeded
store the key and the string reference; exhaustion propagates as NULL. -/
def jemi_string (st : GState) (key : Option Str) (s : Str) : GState × Option NodeId :=
  match jemi_alloc st .JEMI_STRING with
  | (st1, none) => (st1, none)
  | (st1, some nid) =>
      (commit st1 nid { st1.heap nid with key := key, pay := .ustr s }, some nid)

/-- jemi_true from jemi.c. -/
def jemi_true (st : GState) : GState × Option NodeId := jemi_alloc st .JEMI_TRUE

/-- jemi_false from jemi.c. -/
def jemi_false (st : GState) : GState × Option NodeId := jemi_alloc st .JEMI_FALSE

/-- jemi_null from jemi.c. -/
def jemi_null (st : GState) : GState × Option NodeId := jemi_alloc st .JEMI_NULL

/-- jemi_bool from jemi.c: build a JEMI_TRUE or JEMI_FALSE node, then store
the key through the returned pointer without a NULL check, so pool
exhaustion is undefined behaviour here. -/
def jemi_bool (st : GState) (key : Option Str) (b : Bool) :
    Except RunErr (GState × Option NodeId) :=
  let p := if b then jemi_true st else jemi_false st
  match p.2 with
  | none => .error .ub
  | some nid => .ok (commit p.1 nid { p.1.heap nid with key := key }, some nid)

/-- jemi_float_set from jemi.c: store a number into an existing node, NULL
tolerated. -/
def jemi_float_set (st : GState) (node : Option NodeId) (q : Rat) : GState × Option NodeId :=
  match node with
  | none => (st, none)
  | some nid => (commit st nid { st.heap nid with pay := .unum q }, node)

/-- The conversion of an int64_t argument to the int field, modelled as the
usual two-complement wrap. -/
def wrap32 (n : Int) : Int := (n + 2 ^ 31) % 2 ^ 32 - 2 ^ 31

/-- jemi_integer_set from jemi.c: store an integer into an existing node,
NULL tolerated.  The parameter is int64_t, the stored field an int. -/
def jemi_integer_set (st : GState) (node : Option NodeId) (i : Int) : GState × Option NodeId :=
  match node with
  | none => (st, none)
  | some nid => (commit st nid { st.heap nid with pay := .uint (wrap32 i) }, node)

/-- jemi_string_set from jemi.c: store a string reference into an existing
node, NULL tolerated. -/
def jemi_string_set (st : GState) (node : Option NodeId) (s : Str) : GState × Option NodeId :=
  match node with
  | none => (st, none)
  | some nid => (commit st nid { st.heap nid with pay := .ustr s }, node)

/-- jemi_bool_set from jemi.c: flip the node type between JEMI_TRUE and
JEMI_FALSE, NULL tolerated. -/
def jemi_bool_set (st : GState) (node : Option NodeId) (b : Bool) : GState × Option NodeId :=
  match node with
  | none => (st, none)
  | some nid =>
      (commit st nid { st.heap nid with type := if b then .JEMI_TRUE else .JEMI_FALSE }, node)

/-- The walk to the last sibling in jemi_list_append, with the pool size as
fuel (sufficient for every acyclic chain inside the pool). -/
def walkLast (st : GState) : Nat → NodeId → NodeId
  | 0, i => i
  | f + 1, i =>
      match (st.heap i).sibling with
      | none => i
      | some j => walkLast st f j

/-- jemi_list_append from jemi.c: an empty list becomes the items; otherwise
walk to the last sibling, hang the items there and return the list head. -/
def jemi_list_append (st : GState) (list : Option NodeId) (items : Option NodeId) :
    GState × Option NodeId :=
  match list with
  | none => (st, items)
  | some l =>
      let last := walkLast st st.size l
      (commit st last { st.heap last with sibling := items }, some l)

/-- jemi_array_append from jemi.c: set the parent of the items head (and of
no other element of the chain) to the array, then append the chain to the
children list.  A NULL items pointer is dereferenced unconditionally. -/
def jemi_array_append (st : GState) (array : Option NodeId) (items : Option NodeId) :
    Except RunErr (GState × Option NodeId) :=
  match items with
  | none => .error .ub
  | some it =>
      let st1 := commit st it { st.heap it with parent := array }
      match array with
      | none => .ok (st1, none)
      | some a =>
          match readChildren (st1.heap a).pay with
          | none => .error .ub
          | some ch =>
              let p := jemi_list_append st1 ch (some it)
              .ok (commit p.1 a { p.1.heap a with pay := .uchild p.2 }, array)

/-- jemi_object_append from jemi.c: identical body to jemi_array_append. -/
def jemi_object_append (st : GState) (object : Option NodeId) (items : Option NodeId) :
    Except RunErr (GState × Option NodeId) :=
  match items with
  | none => .error .ub
  | some it =>
      let st1 := commit st it { st.heap it with parent := object }
      match object with
      | none => .ok (st1, none)
      | some o =>
          match readChildren (st1.heap o).pay with
          | some ch =>
              let p := jemi_list_append st1 ch (some it)
              .ok (commit p.1 o { p.1.heap o with pay := .uchild p.2 }, object)
          | none => .error .ub

mutual

/-- copy_node from jemi.c: allocate a node of the same type and copy the
payload per type; the switch handles JEMI_ARRAY and JEMI_OBJECT (deep copy
of the children list through jemi_copy), JEMI_STRING (pointer copied) and
JEMI_INTEGER (value copied, falling into the no-action default), and leaves
every other type, JEMI_FLOAT included, to the no-action default.  The key is
never copied.  When allocation fails, the types whose branch stores through
the copy dereference NULL; the remaining types silently return NULL. -/
def copy_node (fuel : Nat) (st : GState) (node : Option NodeId) :
    Except RunErr (GState × Option NodeId) :=
  match node with
  | none => .ok (st, none)
  | some nid =>
      match fuel with
      | 0 => .error .fuel
      | f + 1 =>
          let n := st.heap nid
          let p := jemi_alloc st n.type
          match p.2 with
          | none =>
              match n.type with
              | .JEMI_ARRAY | .JEMI_OBJECT | .JEMI_STRING | .JEMI_INTEGER => .error .ub
              | _ => .ok (p.1, none)
          | some cid =>
              match n.type with
              | .JEMI_ARRAY | .JEMI_OBJECT =>
                  match readChildren n.pay with
                  | none => .error .ub
                  | some ch =>
                      match copy_loop f p.1 ch none none with
                      | .error e => .error e
                      | .ok (st2, cc) =>
                          .ok (commit st2 cid { st2.heap cid with pay := .uchild cc }, some cid)
              | .JEMI_STRING =>
                  match readString n.pay with
                  | none => .error .ub
                  | some s =>
                      .ok (commit p.1 cid { p.1.heap cid with pay := .ustr s }, some cid)
              | .JEMI_INTEGER =>
                  match readInteger n.pay with
                  | none => .error .ub
                  | some i =>
                      .ok (commit p.1 cid { p.1.heap cid with pay := .uint i }, some cid)
              | _ => .ok (p.1, some cid)

/-- The while loop of jemi_copy: copy the current node; a NULL copy ends the
loop and returns the first copy; otherwise remember the first copy, chain
the new copy to the previous one, and advance to the sibling of the
original. -/
def copy_loop (fuel : Nat) (st : GState) (root prev r2 : Option NodeId) :
    Except RunErr (GState × Option NodeId) :=
  match fuel with
  | 0 => .error .fuel
  | f + 1 =>
      match copy_node f st root with
      | .error e => .error e
      | .ok (st1, none) => .ok (st1, r2)
      | .ok (st1, some nid) =>
          let r2n := match r2 with | none => some nid | some x => some x
          let st2 := match prev with
            | none => st1
            | some pr => commit st1 pr { st1.heap pr with sibling := some nid }
          match root with
          | none => .error .ub
          | some rid => copy_loop f st2 ((st2.heap rid).sibling) (some nid) r2n

end

/-- jemi_copy from jemi.c: run the sibling loop starting with no previous
copy and no first copy recorded. -/
def jemi_copy (fuel : Nat) (st : GState) (root : Option NodeId) :
    Except RunErr (GState × Option NodeId) :=
  copy_loop fuel st root none none

/-- Result type of one emission step or one jemi_emit call. -/
abbrev EmitRes := Except RunErr (GState × Out × Int × Option NodeId)

/-- Error projection of any model result. -/
def exErr {α : Type} : Except RunErr α → Option RunErr
  | .error e => some e
  | .ok _ => none

/-- Buffer contents of a successful emission result. -/
def emitBuf : EmitRes → Option Str
  | .ok (_, o, _, _) => some o.buf
  | .error _ => none

/-- Full flag of a successful emission result. -/
def emitFull : EmitRes → Option Bool
  | .ok (_, o, _, _) => some o.full
  | .error _ => none

/-- Continuation node of a successful emission result. -/
def emitNext : EmitRes → Option (Option NodeId)
  | .ok (_, _, _, nx) => some nx
  | .error _ => none

/-- State of one pool node after a successful emission result. -/
def emitNodeState : EmitRes → NodeId → Option JemiState
  | .ok (st, _, _, _), i => some (st.heap i).state
  | .error _, _ => none

/-- A pool holding one JEMI_FLOAT node (slot 0) with number 5, built through
jemi_reset, jemi_alloc and jemi_float_set. -/
def stFloat : GState :=
  let p := jemi_alloc (jemi_reset 1) .JEMI_FLOAT
  (jemi_float_set p.1 p.2 5).1

/-- A pool holding one keyless JEMI_INTEGER node (slot 0) with value 5. -/
def stInt : GState := (jemi_integer (jemi_reset 1) none 5).1

/-- A pool holding one keyless JEMI_INTEGER node (slot 0) with value 52. -/
def stInt52 : GState := (jemi_integer (jemi_reset 1) none 52).1

/-- A pool holding one JEMI_TRUE node (slot 0) built through jemi_true. -/
def stTrue : GState := (jemi_true (jemi_reset 1)).1

/-- A pool holding one JEMI_FLOAT node with key x and number 25 (a tree
state as the declared jemi_float constructor plus jemi_float_set would
produce it). -/
def stKeyFloat : GState :=
  { heap := Function.update (fun _ => zeroNode) 0
      { zeroNode with type := .JEMI_FLOAT, key := some (strL "x"), pay := .unum 25 }
  , size := 1
  , freelist := none }

/-- First chunked call on the integer-52 pool: capacity 2 rejects the value
fragment, so the call suspends at node 0. -/
def c1chunk1 : EmitRes := jemi_emit genv0 3 stInt52 (some 0) (mkOut 2) (-1)

/-- Resumed call on the integer-52 pool, continuing from the state, counter
and node returned by the first chunked call, with ample capacity. -/
def c1resume : EmitRes :=
  match c1chunk1 with
  | .ok (st1, _, l1, nx) => jemi_emit genv0 3 st1 nx (mkOut 32) l1
  | .error e => .error e

/-- The rational five halves, given directly in lowest terms so that kernel
reduction never needs a gcd computation. -/
def fiveHalves : Rat := ⟨5, 2, by decide, by decide⟩

/-- A pool of two slots holding one JEMI_FLOAT node (slot 1) with number
5 / 2, built through jemi_reset, jemi_alloc and jemi_float_set; slot 0 stays
on the freelist for the copy. -/
def stFloatHalf : GState :=
  let p := jemi_alloc (jemi_reset 2) .JEMI_FLOAT
  (jemi_float_set p.1 p.2 fiveHalves).1

/-- jemi_copy applied to the float node of stFloatHalf. -/
def c6res : Except RunErr (GState × Option NodeId) := jemi_copy 4 stFloatHalf (some 1)

/-- The pool after the copy of the float node. -/
def c6state : GState := (c6res.toOption.getD (stFloatHalf, none)).1

/-- The pool after: an empty jemi_array (slot 3), two keyless integers 1 and
2 (slots 2 and 1), jemi_list linking them into the chain 2 -> 1, and
jemi_array_append of that chain onto the array. -/
def c5state : GState :=
  ((do
    let st0 := jemi_reset 4
    let p1 ← jemi_array st0 none []
    let p2 := jemi_integer p1.1 none 1
    let p3 := jemi_integer p2.1 none 2
    let p4 := jemi_list p3.1 [p2.2, p3.2]
    let p5 ← jemi_array_append p4.1 p1.2 p4.2
    pure p5.1 : Except RunErr GState)).toOption.getD (jemi_reset 0)

/-- A streaming array node (children chain exhausted, generator attached),
as the automaton leaves it right before consulting the generator. -/
def arrStreamNode : Node :=
  { zeroNode with
      type := .JEMI_ARRAY,
      state := .JEMI_CHILDREN_USED,
      pay := .uchild (some 1),
      update := some 0 }

/-- The already-emitted integer child of the streaming array. -/
def intUsedNode : Node :=
  { zeroNode with
      type := .JEMI_INTEGER,
      state := .JEMI_NODE_USED,
      pay := .uint 1,
      parent := some 0 }

/-- A pool with the streaming array in slot 0 and its emitted child in
slot 1. -/
def stStream : GState :=
  { heap := Function.update (Function.update (fun _ => zeroNode) 0 arrStreamNode) 1 intUsedNode
  , size := 2, freelist := none }

/-- A 28-byte string of letters a. -/
def s28 : Str := List.replicate 28 'a'

/-- A pool holding one keyless JEMI_STRING node with the 28-byte string. -/
def stLongStr : GState := (jemi_string (jemi_reset 1) none s28).1

/-- Claim C1: resumability equivalence fails on the code.  A pool holding a
single keyless Float node with number 5 emits the text 5 in one call with
ample capacity, but the first call of a chunked emission whose capacity
rejects the value fragment runs into undefined behaviour: the missing break
of the JEMI_FLOAT case drops control into the JEMI_STRING case, which
reinterprets the stored double as a string pointer and passes it to
snprintf.  For integer trees the resumption machinery does concatenate
chunks to the single-call output, confirming that the claim states the
intended behaviour. -/
theorem c1_resumability_broken_by_float_fallthrough :
    emitBuf (jemi_emit genv0 3 stFloat (some 0) (mkOut 32) (-1)) =
      some (strL "5" ++ [Char.ofNat 0]) ∧
    exErr (jemi_emit genv0 3 stFloat (some 0) (mkOut 1) (-1)) = some .ub ∧
    emitBuf (jemi_emit genv0 3 stInt52 (some 0) (mkOut 32) (-1)) =
      some (strL "52" ++ [Char.ofNat 0]) ∧
    emitBuf c1chunk1 = some [Char.ofNat 0] ∧
    emitNext c1chunk1 = some (some 0) ∧
    emitBuf c1resume = some (strL "52" ++ [Char.ofNat 0]) := by
  decide

/-- Claim C2: fragment atomicity holds at the integer value fragment (the
rejected fragment writes no byte, the state stays at JEMI_KEY_USED, the
sink is marked full and the same node is returned for retry), but fails for
Float nodes: rejecting the float value fragment makes the fallen-through
JEMI_STRING case read the double payload as a string pointer, undefined
behaviour instead of a clean suspension. -/
theorem c2_fragment_atomicity_float_ub :
    emitBuf (emit_aux genv0 stInt 0 (mkOut 1) (-1)) = some [] ∧
    emitFull (emit_aux genv0 stInt 0 (mkOut 1) (-1)) = some true ∧
    emitNodeState (emit_aux genv0 stInt 0 (mkOut 1) (-1)) 0 = some .JEMI_KEY_USED ∧
    emitNext (emit_aux genv0 stInt 0 (mkOut 1) (-1)) = some (some 0) ∧
    exErr (emit_aux genv0 stFloat 0 (mkOut 1) (-1)) = some .ub := by
  decide

/-- Claim C3: a node of kind JEMI_TRUE emits the literal false, because the
condition in emit_aux compares the type enumerator JEMI_TRUE against the
node state field (which holds JEMI_KEY_USED at that point), so the
comparison is always false. -/
theorem c3_true_node_emits_false :
    (stTrue.heap 0).type = .JEMI_TRUE ∧
    emitBuf (jemi_emit genv0 3 stTrue (some 0) (mkOut 32) (-1)) =
      some (strL "false" ++ [Char.ofNat 0]) := by
  decide

/-- Claim C4: on an exhausted arena, jemi_array and jemi_bool dereference
the NULL result of jemi_alloc (undefined behaviour) instead of returning
the no-node value, while jemi_integer and jemi_true do propagate NULL
safely. -/
theorem c4_exhaustion_crashes_array_and_bool :
    exErr (jemi_array (jemi_reset 0) none []) = some .ub ∧
    exErr (jemi_bool (jemi_reset 0) (some (strL "k")) true) = some .ub ∧
    (jemi_integer (jemi_reset 0) none 7).2 = none ∧
    (jemi_true (jemi_reset 0)).2 = none := by
  decide

/-- Claim C5: after appending the two-element sibling chain 2 -> 1 to the
array in slot 3, node 1 is reachable through the children chain of the
array (children head 2, sibling 1) but its parent is NULL, because
jemi_array_append sets parent only on the head of the appended chain. -/
theorem c5_append_sets_parent_only_on_head :
    (c5state.heap 3).pay = .uchild (some 2) ∧
    (c5state.heap 2).sibling = some 1 ∧
    (c5state.heap 2).parent = some 3 ∧
    (c5state.heap 1).sibling = none ∧
    (c5state.heap 1).parent = none := by
  decide

/-- Claim C6: jemi_copy of a Float node with number 5 / 2 produces a clone
whose union is still the zeroed allocation state (number reads as 0), not
equal to the source payload, because the switch in copy_node has no
JEMI_FLOAT branch; the clone does start at JEMI_NODE_UNUSED. -/
theorem c6_copy_drops_float_payload :
    (c6res.toOption.getD (stFloatHalf, none)).2 = some 0 ∧
    (c6state.heap 1).pay = .unum fiveHalves ∧
    (c6state.heap 0).type = .JEMI_FLOAT ∧
    (c6state.heap 0).state = .JEMI_NODE_UNUSED ∧
    (c6state.heap 0).pay = .uzero ∧
    readNumber (c6state.heap 0).pay = some 0 ∧
    (c6state.heap 0).pay ≠ (c6state.heap 1).pay := by
  decide

/-- Claim C7 counterexample: a String node whose contents are 28 bytes long
emits only the opening quote and the contents, with the closing quote cut
off by the 30-byte snprintf buffer, so the output is not one quote, the
contents and a closing quote. -/
theorem c7_counterexample :
    emitBuf (jemi_emit genv0 3 stLongStr (some 0) (mkOut 32) (-1)) =
      some ('"' :: s28 ++ [Char.ofNat 0]) ∧
    ('"' :: s28 ++ [Char.ofNat 0]) ≠ ('"' :: s28 ++ ['"'] ++ [Char.ofNat 0]) := by
  decide

/-- Claim C8 counterexample: a streaming array whose generator reports zero
elements remaining does not emit the closing bracket in that step; the
automaton emits a separator comma, stays in JEMI_CHILDREN_USED and
re-descends into the children chain, closing the array only on a later
visit. -/
theorem c8_counterexample :
    emitBuf (emit_aux genv0 stStream 0 (mkOut 10) (-1)) = some [','] ∧
    emitNext (emit_aux genv0 stStream 0 (mkOut 10) (-1)) = some (some 1) ∧
    emitNodeState (emit_aux genv0 stStream 0 (mkOut 10) (-1)) 0 =
      some .JEMI_CHILDREN_USED := by
  decide

/-- Claim C10: within one jemi_emit call on a keyed Float node, ample
capacity produces the key prefix and the value followed by the terminator;
but when capacity admits the key fragment and then rejects the value
fragment, the call does not quiesce after setting the full flag: the float
fallthrough immediately attempts a further write through the reinterpreted
payload, undefined behaviour. -/
theorem c10_quiescence_broken_by_float_fallthrough :
    emitBuf (jemi_emit genv0 3 stKeyFloat (some 0) (mkOut 32) (-1)) =
      some (strL "\"x\":25" ++ [Char.ofNat 0]) ∧
    exErr (jemi_emit genv0 3 stKeyFloat (some 0) (mkOut 6) (-1)) = some .ub := by
  decide

/-- The pool state after k calls to jemi_alloc, all with the same type. -/
def allocK (t : JemiType) : Nat → GState → GState
  | 0, st => st
  | k + 1, st => (jemi_alloc (allocK t k st) t).1

/-- Shape invariant of the freelist after a reset of a pool of size N
followed by some allocations: m slots remain free, the freelist head is
slot m - 1, and every free slot i links down to slot i - 1. -/
def ChainInv (st : GState) (N m : Nat) : Prop :=
  st.size = N ∧ m ≤ N ∧
  st.freelist = (if m = 0 then none else some (m - 1)) ∧
  ∀ i, i < m → (st.heap i).sibling = (if i = 0 then none else some (i - 1))

theorem chainInv_reset (N : Nat) : ChainInv (jemi_reset N) N N := by
  refine ⟨rfl, le_rfl, rfl, ?_⟩
  intro i hi
  simp [jemi_reset, hi]

theorem chainInv_alloc (st : GState) (N m : Nat) (t : JemiType)
    (h : ChainInv st N m) : ChainInv (jemi_alloc st t).1 N (m - 1) := by
  obtain ⟨hsz, hmN, hfl, hchain⟩ := h
  cases m with
  | zero =>
      have hfl2 : st.freelist = none := by simpa using hfl
      have heq : (jemi_alloc st t).1 = st := by
        simp [jemi_alloc, hfl2]
      rw [heq]
      refine ⟨hsz, Nat.zero_le _, by simpa using hfl2, ?_⟩
      intro i hi
      exact absurd hi (Nat.not_lt_zero i)
  | succ m0 =>
      have hfl2 : st.freelist = some m0 := by simpa using hfl
      have hm0 : (st.heap m0).sibling = (if m0 = 0 then none else some (m0 - 1)) :=
        hchain m0 (Nat.lt_succ_self m0)
      refine ⟨?_, by omega, ?_, ?_⟩
      · simp [jemi_alloc, hfl2, hsz]
      · simp only [jemi_alloc, hfl2]
        simpa using hm0
      · intro i hi
        simp only [jemi_alloc, hfl2]
        have hne : i ≠ m0 := by omega
        simp only [Function.update_noteq hne]
        exact hchain i (by omega)

theorem availAux_chain (st : GState) :
    ∀ m fuel, (∀ i, i < m → (st.heap i).sibling = (if i = 0 then none else some (i - 1))) →
      m ≤ fuel → availAux st fuel (if m = 0 then none else some (m - 1)) = m := by
  intro m
  induction m with
  | zero => intro fuel _ _; simp [availAux]
  | succ m0 ih =>
      intro fuel hchain hfuel
      cases fuel with
      | zero => exact absurd hfuel (Nat.not_succ_le_zero m0)
      | succ f =>
          have hstep : availAux st (f + 1) (if m0 + 1 = 0 then none else some (m0 + 1 - 1)) =
              1 + availAux st f (st.heap m0).sibling := by
            simp [availAux]
          rw [hstep, hchain m0 (Nat.lt_succ_self m0),
            ih f (fun i hi => hchain i (Nat.lt_succ_of_lt hi)) (Nat.le_of_succ_le_succ hfuel)]
          omega

theorem chainInv_avail (st : GState) (N m : Nat) (h : ChainInv st N m) :
    jemi_available st = m := by
  obtain ⟨hsz, hmN, hfl, hchain⟩ := h
  unfold jemi_available
  rw [hsz, hfl]
  exact availAux_chain st m N hchain hmN

theorem chainInv_allocK (t : JemiType) (N : Nat) :
    ∀ k, k ≤ N → ChainInv (allocK t k (jemi_reset N)) N (N - k) := by
  intro k
  induction k with
  | zero => intro _; simpa using chainInv_reset N
  | succ k0 ih =>
      intro hk
      have h0 := chainInv_alloc _ _ _ t (ih (by omega))
      have : N - k0 - 1 = N - (k0 + 1) := by omega
      rw [this] at h0
      exact h0

/-- Claim C9: after jemi_reset on a pool of N slots, jemi_available reports
N; after k successful jemi_alloc calls with no intervening reset it reports
N - k, and each of those k allocations indeed returns a node. -/
theorem c9_arena_conservation (N k : Nat) (t : JemiType) (h : k ≤ N) :
    jemi_available (jemi_reset N) = N ∧
    jemi_available (allocK t k (jemi_reset N)) = N - k ∧
    (∀ j, j < k → (jemi_alloc (allocK t j (jemi_reset N)) t).2 ≠ none) := by
  refine ⟨chainInv_avail _ N N (chainInv_reset N), ?_, ?_⟩
  · exact chainInv_avail _ N (N - k) (chainInv_allocK t N k h)
  · intro j hj
    obtain ⟨hsz, hmN, hfl, hchain⟩ := chainInv_allocK t N j (by omega)
    have hpos : N - j ≠ 0 := by omega
    simp only [jemi_alloc, hfl, if_neg hpos]
    simp

/-- Witness for c9_arena_conservation at N = 3, k = 2. -/
theorem c9_arena_conservation_witness :
    jemi_available (jemi_reset 3) = 3 ∧
    jemi_available (allocK .JEMI_NULL 2 (jemi_reset 3)) = 3 - 2 ∧
    (∀ j, j < 2 → (jemi_alloc (allocK .JEMI_NULL j (jemi_reset 3)) .JEMI_NULL).2 ≠ none) :=
  c9_arena_conservation 3 2 .JEMI_NULL (by decide)

/-- A single-slot pool holding the given node in slot 0: the smallest pool
exhibiting the per-node behaviour of the automaton for an arbitrary node. -/
def mkPool (n : Node) : GState :=
  { heap := Function.update (fun _ => zeroNode) 0 n, size := 1, freelist := none }

theorem commit_mkPool (n m : Node) : commit (mkPool m) 0 n = mkPool n := by
  unfold commit mkPool
  rw [Function.update_idem]

/-- A String node with arbitrary key, contents and parent, in state
JEMI_KEY_USED and with no sibling, as the automaton reaches it right before
emitting the quoted value. -/
def stringNode (k : Option Str) (s : Str) (par : Option NodeId) : Node :=
  { sibling := none, parent := par, type := .JEMI_STRING, state := .JEMI_KEY_USED,
    key := k, pay := .ustr s, update := none }

/-- Claim C7, amended: for every String node in state JEMI_KEY_USED (no
sibling here, so the step also runs its comma block through to
JEMI_NODE_USED), with the sink able to take the fragment, the automaton
emits the first 29 bytes of the sequence one double quote, the string
contents verbatim and unescaped, one closing double quote; contents of at
most 27 bytes render in full, longer contents are truncated by the 30-byte
snprintf buffer and lose the closing quote. -/
theorem c7_amended (genv : GenEnv) (out : Out) (left : Int) (k : Option Str) (s : Str)
    (par : Option NodeId)
    (hcap : out.buf.length + ((['"'] ++ s ++ ['"']).take 29).length ≤ capThreshold out.bufLen) :
    emit_aux genv (mkPool (stringNode k s par)) 0 out left =
      .ok (commit (mkPool (stringNode k s par)) 0
             { stringNode k s par with state := .JEMI_NODE_USED },
           { out with buf := out.buf ++ (['"'] ++ s ++ ['"']).take 29 },
           left, par) := by
  have hes : emit_string out ((['"'] ++ s ++ ['"']).take 29) =
      ({ out with buf := out.buf ++ (['"'] ++ s ++ ['"']).take 29 }, false) := by
    unfold emit_string
    rw [if_neg (by omega)]
  show (let p := emit_string out ((['"'] ++ s ++ ['"']).take 29)
        let c2 := commaStep
          (if p.2 = true then stringNode k s par
           else { stringNode k s par with state := .JEMI_VAL_USED }) p.1
        stepTail (mkPool (stringNode k s par)) 0 c2.1 c2.2 left) = _
  rw [hes]
  rfl

/-- Witness for c7_amended at the two-byte string hi. -/
theorem c7_amended_witness :
    emit_aux genv0 (mkPool (stringNode none (strL "hi") none)) 0 (mkOut 34) (-1) =
      .ok (commit (mkPool (stringNode none (strL "hi") none)) 0
             { stringNode none (strL "hi") none with state := .JEMI_NODE_USED },
           { mkOut 34 with buf := (mkOut 34).buf ++ (['"'] ++ strL "hi" ++ ['"']).take 29 },
           -1, none) :=
  c7_amended genv0 (mkOut 34) (-1) none (strL "hi") none (by decide)

/-- A streaming array node with arbitrary key, children head, generator,
sibling and parent, in state JEMI_CHILDREN_USED, as the automaton reaches
it once the pre-built children chain is exhausted. -/
def streamNode (k : Option Str) (c : Option NodeId) (gid : Nat) (sib par : Option NodeId) :
    Node :=
  { sibling := sib, parent := par, type := .JEMI_ARRAY, state := .JEMI_CHILDREN_USED,
    key := k, pay := .uchild c, update := some gid }

/-- Claim C8, amended: for every array node carrying a generator callback,
the automaton consults the generator only in state JEMI_CHILDREN_USED; when
the shared remaining counter is nonzero it first emits a separator comma,
invokes the generator, stores its result in the shared counter and then
re-descends into the children chain unconditionally, whatever the indicator
says; the closing bracket is emitted only on a later visit, once the shared
counter is zero, which also resets the counter to -1. -/
theorem c8_amended (genv : GenEnv) (out : Out) (left : Int) (gid : Nat) (k : Option Str)
    (c c2 sib par : Option NodeId)
    (hleft : left ≠ 0)
    (hcap : out.buf.length + 2 ≤ capThreshold out.bufLen)
    (hgen : ((genv gid (mkPool (streamNode k c gid sib par)) c).1.heap 0).pay = .uchild c2) :
    emit_aux genv (mkPool (streamNode k c gid sib par)) 0 out left =
      .ok ((genv gid (mkPool (streamNode k c gid sib par)) c).1,
           { out with buf := out.buf ++ [','] },
           (((genv gid (mkPool (streamNode k c gid sib par)) c).2 % 256 : Nat) : Int),
           c2) ∧
    emit_aux genv (mkPool (streamNode k c gid sib par)) 0 out 0 =
      .ok (commit (mkPool (streamNode k c gid sib par)) 0
             { streamNode k c gid sib par with state := .JEMI_NODE_USED },
           { out with buf := out.buf ++ (match sib with | some _ => [']', ','] | none => [']']) },
           -1,
           (match sib with | some s2 => some s2 | none => par)) := by
  have hcomma : emit_string out [','] = ({ out with buf := out.buf ++ [','] }, false) := by
    unfold emit_string
    rw [if_neg (by simp only [List.length_cons, List.length_nil]; omega)]
  have hnotneg : ¬ ((((genv gid (mkPool (streamNode k c gid sib par)) c).2 % 256 : Nat) : Int)
      = -1) := by omega
  refine ⟨?_, ?_⟩
  · show (if left ≠ 0 then
            (let p := emit_string out [',']
             if p.2 = true then
               Except.ok (commit (mkPool (streamNode k c gid sib par)) 0
                            (streamNode k c gid sib par), p.1, left, some 0)
             else
               match readChildren (streamNode k c gid sib par).pay with
               | none => Except.error RunErr.ub
               | some ch =>
                   let g := genv gid
                     (commit (mkPool (streamNode k c gid sib par)) 0
                       (streamNode k c gid sib par)) ch
                   let left1 : Int := ((g.2 % 256 : Nat) : Int)
                   if left1 = -1 then containerClose ']' g.1 0 (g.1.heap 0) p.1 left1
                   else
                     match readChildren (g.1.heap 0).pay with
                     | none => Except.error RunErr.ub
                     | some cc => Except.ok (g.1, p.1, left1, cc))
          else containerClose ']' (mkPool (streamNode k c gid sib par)) 0
                 (streamNode k c gid sib par) out (-1)) = _
    rw [if_pos hleft, hcomma]
    show (if (((genv gid (commit (mkPool (streamNode k c gid sib par)) 0
                  (streamNode k c gid sib par)) c).2 % 256 : Nat) : Int) = -1 then
            containerClose ']'
              (genv gid (commit (mkPool (streamNode k c gid sib par)) 0
                 (streamNode k c gid sib par)) c).1 0
              ((genv gid (commit (mkPool (streamNode k c gid sib par)) 0
                  (streamNode k c gid sib par)) c).1.heap 0)
              { out with buf := out.buf ++ [','] }
              (((genv gid (commit (mkPool (streamNode k c gid sib par)) 0
                   (streamNode k c gid sib par)) c).2 % 256 : Nat) : Int)
          else
            match readChildren ((genv gid (commit (mkPool (streamNode k c gid sib par)) 0
                (streamNode k c gid sib par)) c).1.heap 0).pay with
            | none => Except.error RunErr.ub
            | some cc =>
                Except.ok ((genv gid (commit (mkPool (streamNode k c gid sib par)) 0
                              (streamNode k c gid sib par)) c).1,
                  { out with buf := out.buf ++ [','] },
                  (((genv gid (commit (mkPool (streamNode k c gid sib par)) 0
                      (streamNode k c gid sib par)) c).2 % 256 : Nat) : Int),
                  cc)) = _
    rw [commit_mkPool, if_neg hnotneg, hgen]
    rfl
  · cases sib with
    | none =>
        have hes : emit_string out [']'] = ({ out with buf := out.buf ++ [']'] }, false) := by
          unfold emit_string
          rw [if_neg (by simp only [List.length_cons, List.length_nil]; omega)]
        show (let p := emit_string out [']']
              stepTail (mkPool (streamNode k c gid none par)) 0
                (if p.2 = true then streamNode k c gid none par
                 else { streamNode k c gid none par with state := .JEMI_NODE_USED })
                p.1 (-1)) = _
        rw [hes]
        rfl
    | some s2 =>
        have hes : emit_string out [']', ','] =
            ({ out with buf := out.buf ++ [']', ','] }, false) := by
          unfold emit_string
          rw [if_neg (by simp only [List.length_cons, List.length_nil]; omega)]
        show (let p := emit_string out [']', ',']
              stepTail (mkPool (streamNode k c gid (some s2) par)) 0
                (if p.2 = true then streamNode k c gid (some s2) par
                 else { streamNode k c gid (some s2) par with state := .JEMI_NODE_USED })
                p.1 (-1)) = _
        rw [hes]
        rfl

/-- Witness for c8_amended with the trivial generator environment. -/
theorem c8_amended_witness :
    emit_aux genv0 (mkPool (streamNode none (some 1) 0 none none)) 0 (mkOut 8) (-1) =
      .ok ((genv0 0 (mkPool (streamNode none (some 1) 0 none none)) (some 1)).1,
           { mkOut 8 with buf := (mkOut 8).buf ++ [','] },
           (((genv0 0 (mkPool (streamNode none (some 1) 0 none none)) (some 1)).2 % 256
              : Nat) : Int),
           some 1) ∧
    emit_aux genv0 (mkPool (streamNode none (some 1) 0 none none)) 0 (mkOut 8) 0 =
      .ok (commit (mkPool (streamNode none (some 1) 0 none none)) 0
             { streamNode none (some 1) 0 none none with state := .JEMI_NODE_USED },
           { mkOut 8 with buf := (mkOut 8).buf ++ [']'] },
           -1, none) :=
  c8_amended genv0 (mkOut 8) (-1) 0 none (some 1) (some 1) none none
    (by decide) (by decide) (by decide)

end Jemi
